import Mathlib

/-!
Verification of the widget/view core (`widgetastic/core/widget.py`).

The development shallowly embeds the parts of the module that the claims
are about:

* the exception taxonomy raised/caught by the module,
* the control flow of `View.fill` (lines 301-330) and `View.read`
  (lines 332-349), with each widget's own `fill`/`read` behaviour
  abstracted as a function from the widget's name to an `Except` result,
* the descriptor resolution/caching protocol (`WidgetDescriptor.__get__`,
  lines 38-45) and `View.flush_widget_cache` (lines 247-251) over an
  explicit heap of object instances,
* `View.widget_names` (lines 253-265) over an explicit attribute
  enumeration, and
* `Widget.parent_view` (lines 115-125) over a parent-chain datatype.

Machine integers do not occur in the module; values handled by fill/read
are opaque to the control flow and are modelled by `Nat`.
-/

set_option maxHeartbeats 1000000

namespace Widgetastic

/-- The exception classes the module raises or catches:
`NotImplementedError` (base `Widget.fill`/`Widget.read`),
`NoSuchElementException` and `LocatorNotImplemented` (imported from the
exceptions module), `NameError` (raised by `View.fill` for an unknown
widget name, carrying the view's type name and the offending widget
name), and a catch-all constructor for any other exception class an
overridden widget method could raise. -/
inductive Exc where
  | notImplementedError : Exc
  | noSuchElementException : Exc
  | nameError (viewName widgetName : String) : Exc
  | locatorNotImplemented : Exc
  | otherExc (code : Nat) : Exc
deriving DecidableEq

/-- Base `Widget.fill` (widget.py lines 154-164): a widget variant that
does not override `fill` raises `NotImplementedError`. -/
def Widget.fillDefault : Except Exc Bool :=
  Except.error Exc.notImplementedError

/-- Base `Widget.read` (widget.py lines 166-173): a widget variant that
does not override `read` raises `NotImplementedError`. -/
def Widget.readDefault : Except Exc Nat :=
  Except.error Exc.notImplementedError

/-- The per-view data `View.fill` consults: the view's type name (used in
the `NameError` message), the result of `self.widget_names()` (computed
once, before the loop), and the behaviour of each named widget's `fill`
method (the result of `getattr(self, name).fill(value)`). -/
structure FillEnv where
  viewName : String
  names : List String
  fills : String → Nat → Except Exc Bool

/-- Observable events of a `View.fill` call: the `before_fill` hook, an
invocation of a widget's `fill` method, and the `after_fill` hook. -/
inductive Event where
  | beforeFill : Event
  | widgetFill (name : String) (value : Nat) : Event
  | afterFill (changed : Bool) : Event
deriving DecidableEq

/-- The `for name, value in values.iteritems()` loop of `View.fill`
(widget.py lines 316-327), started with accumulator `was_change`.
Mirrors the source line by line: an unknown name raises `NameError`; a
`None` value is skipped; otherwise the widget's `fill` is invoked, a
`True` result sets `was_change`, `NotImplementedError` is caught and the
loop continues, and any other exception propagates.  Returns the
outcome (final `was_change`, or the escaping exception) together with
the list of widget-fill invocations actually performed, in order. -/
def fillLoop (env : FillEnv) :
    List (String × Option Nat) → Bool → Except Exc Bool × List Event
  | [], wasChange => (Except.ok wasChange, [])
  | (name, value) :: rest, wasChange =>
    if name ∈ env.names then
      match value with
      | none => fillLoop env rest wasChange
      | some v =>
        match env.fills name v with
        | Except.ok b =>
          let r := fillLoop env rest (wasChange || b)
          (r.1, Event.widgetFill name v :: r.2)
        | Except.error Exc.notImplementedError =>
          let r := fillLoop env rest wasChange
          (r.1, Event.widgetFill name v :: r.2)
        | Except.error e => (Except.error e, [Event.widgetFill name v])
    else
      (Except.error (Exc.nameError env.viewName name), [])

/-- `View.fill` (widget.py lines 301-330): invoke the `before_fill`
hook, run the loop with `was_change = False`, and on normal completion
invoke `after_fill(was_change)` and return `was_change`; an exception
escaping the loop skips `after_fill`.  The second component is the
trace of hook and widget-fill invocations. -/
def View.fill (env : FillEnv) (values : List (String × Option Nat)) :
    Except Exc Bool × List Event :=
  let r := fillLoop env values false
  match r.1 with
  | Except.ok wasChange =>
    (Except.ok wasChange, Event.beforeFill :: r.2 ++ [Event.afterFill wasChange])
  | Except.error e => (Except.error e, Event.beforeFill :: r.2)

/-- `View.read` (widget.py lines 332-349): for each widget name in
`widget_names()` order, invoke the widget's `read`; `NotImplementedError`
and `NoSuchElementException` omit the name from the result, any other
exception propagates, and a value is recorded as `name ↦ value` in the
accumulated (insertion-ordered) mapping. -/
def View.read (reads : String → Except Exc Nat) :
    List String → Except Exc (List (String × Nat))
  | [] => Except.ok []
  | n :: rest =>
    match reads n with
    | Except.ok v => (View.read reads rest).map (fun m => (n, v) :: m)
    | Except.error Exc.notImplementedError => View.read reads rest
    | Except.error Exc.noSuchElementException => View.read reads rest
    | Except.error e => Except.error e

/-- Recognizer for the `before_fill` hook event. -/
def Event.isBefore : Event → Bool
  | Event.beforeFill => true
  | _ => false

/-- Recognizer for the `after_fill` hook event. -/
def Event.isAfter : Event → Bool
  | Event.afterFill _ => true
  | _ => false

/-- The fill loop over a concatenation: if the first half finishes
normally, the second half continues from its accumulator; if the first
half raises, the suffix is never reached. -/
theorem fillLoop_append (env : FillEnv) (ys : List (String × Option Nat)) :
    ∀ (xs : List (String × Option Nat)) (b : Bool),
      fillLoop env (xs ++ ys) b =
        (match fillLoop env xs b with
         | (Except.ok b', evs) => ((fillLoop env ys b').1, evs ++ (fillLoop env ys b').2)
         | (Except.error e, evs) => (Except.error e, evs)) := by
  intro xs
  induction xs with
  | nil =>
    intro b
    simp [fillLoop]
  | cons p xs ih =>
    obtain ⟨name, value⟩ := p
    intro b
    by_cases hn : name ∈ env.names
    · cases value with
      | none =>
        simp only [List.cons_append, List.append_eq, fillLoop, if_pos hn]
        exact ih b
      | some v =>
        cases hf : env.fills name v with
        | ok c =>
          rcases hfl : fillLoop env xs (b || c) with ⟨res, evs⟩
          simp only [List.cons_append, List.append_eq, fillLoop, if_pos hn, hf,
            ih (b || c), hfl]
          cases res <;> simp
        | error e =>
          rcases hfl : fillLoop env xs b with ⟨res, evs⟩
          cases e <;>
            simp only [List.cons_append, List.append_eq, fillLoop, if_pos hn, hf,
              ih b, hfl] <;>
            cases res <;> simp
    · simp [List.cons_append, fillLoop, if_neg hn]

/-- The fill loop only ever emits widget-fill events: the hooks are
invoked by `View.fill` itself, outside the loop. -/
theorem fillLoop_no_hook_events (env : FillEnv) :
    ∀ (pairs : List (String × Option Nat)) (b : Bool),
      ((fillLoop env pairs b).2.countP (fun e => e.isBefore)) = 0 ∧
      ((fillLoop env pairs b).2.countP (fun e => e.isAfter)) = 0 := by
  intro pairs
  induction pairs with
  | nil => intro b; simp [fillLoop]
  | cons p rest ih =>
    obtain ⟨name, value⟩ := p
    intro b
    by_cases hn : name ∈ env.names
    · cases value with
      | none =>
        simpa only [fillLoop, if_pos hn] using ih b
      | some v =>
        cases hf : env.fills name v with
        | ok c =>
          have h := ih (b || c)
          simp only [fillLoop, if_pos hn, hf, List.countP_cons, h.1, h.2]
          simp [Event.isBefore, Event.isAfter]
        | error e =>
          have h := ih b
          cases e <;>
            simp only [fillLoop, if_pos hn, hf, List.countP_cons, h.1, h.2] <;>
            simp [Event.isBefore, Event.isAfter]
    · simp [fillLoop, if_neg hn]

/-- `View.read` with a reader that always reports a missing element
returns the empty mapping: the element-not-found condition is caught and
the name omitted. -/
theorem read_all_no_such_element (names : List String) :
    View.read (fun _ => Except.error Exc.noSuchElementException) names =
      Except.ok [] := by
  induction names with
  | nil => rfl
  | cons n rest ih => simpa [View.read] using ih

/-- A concrete fill environment used by witnesses: a view named `V` with
a single widget `A` whose `fill` reports a change exactly when the value
is `1`. -/
def envA : FillEnv :=
  ⟨"V", ["A"], fun _ v => Except.ok (v == 1)⟩

/-- Claim C4: during `View.fill`, a name absent from `widget_names()`
raises a `NameError` identifying the view and the unknown name; the
whole call aborts (the pair is not skipped, later pairs are never
processed), and the widget fills already performed for earlier pairs of
the mapping's iteration order remain in the trace (no rollback). -/
theorem fill_unknown_name_aborts (env : FillEnv)
    (pre post : List (String × Option Nat)) (bad : String) (v : Option Nat)
    (b' : Bool) (evs : List Event)
    (hbad : bad ∉ env.names)
    (hpre : fillLoop env pre false = (Except.ok b', evs)) :
    View.fill env (pre ++ (bad, v) :: post) =
      (Except.error (Exc.nameError env.viewName bad), Event.beforeFill :: evs) := by
  have h1 : fillLoop env (pre ++ (bad, v) :: post) false =
      (Except.error (Exc.nameError env.viewName bad), evs) := by
    rw [fillLoop_append env ((bad, v) :: post) pre false, hpre]
    simp [fillLoop, hbad]
  simp [View.fill, h1]

/-- Witness for C4: filling `{A: 1, B: 2}` on a view whose only widget
is `A` aborts with the `NameError` for `B`, after `A` was filled. -/
theorem fill_unknown_name_aborts_witness :
    View.fill envA [("A", some 1), ("B", some 2)] =
      (Except.error (Exc.nameError "V" "B"),
       [Event.beforeFill, Event.widgetFill "A" 1]) :=
  fill_unknown_name_aborts envA [("A", some 1)] [] "B" (some 2) true
    [Event.widgetFill "A" 1] (by decide) (by rfl)

/-- The fill environment of claim C5: widget `A` is fillable (with an
arbitrary change-report `fA`), widget `B` keeps the base `Widget.fill`,
which raises `NotImplementedError`. -/
def nonFillableEnv (fA : Nat → Bool) : FillEnv :=
  ⟨"V", ["A", "B"], fun n v => if n = "A" then Except.ok (fA v) else Widget.fillDefault⟩

/-- Claim C5: a widget that does not override `fill` raises
`NotImplementedError` when filled, and `View.fill` tolerates it: filling
`{A: x, B: y}` on a view with fillable `A` and non-fillable `B` succeeds,
invokes both widgets' `fill`, silently skips `B`'s failure, and returns
exactly the change flag `A` reported. -/
theorem fill_tolerates_non_fillable (fA : Nat → Bool) (x y : Nat) :
    Widget.fillDefault = Except.error Exc.notImplementedError ∧
    View.fill (nonFillableEnv fA) [("A", some x), ("B", some y)] =
      (Except.ok (fA x),
       [Event.beforeFill, Event.widgetFill "A" x, Event.widgetFill "B" y,
        Event.afterFill (fA x)]) := by
  refine ⟨rfl, ?_⟩
  rcases hfa : fA x with _ | _ <;>
    simp [View.fill, fillLoop, nonFillableEnv, Widget.fillDefault, hfa]

/-- Claim C6: a `NoSuchElementException` raised by a widget's `fill` is
not caught by the `NotImplementedError` skip path of `View.fill`: it
propagates with its original identity and aborts the call (later pairs
unprocessed, no `after_fill`); `View.read`, in contrast, tolerates the
same condition by omitting the field. -/
theorem fill_propagates_no_such_element (env : FillEnv)
    (pre post : List (String × Option Nat)) (name : String) (v : Nat)
    (b' : Bool) (evs : List Event)
    (hname : name ∈ env.names)
    (hfill : env.fills name v = Except.error Exc.noSuchElementException)
    (hpre : fillLoop env pre false = (Except.ok b', evs)) :
    View.fill env (pre ++ (name, some v) :: post) =
      (Except.error Exc.noSuchElementException,
       Event.beforeFill :: (evs ++ [Event.widgetFill name v])) ∧
    View.read (fun _ => Except.error Exc.noSuchElementException) env.names =
      Except.ok [] := by
  refine ⟨?_, read_all_no_such_element env.names⟩
  have h1 : fillLoop env (pre ++ (name, some v) :: post) false =
      (Except.error Exc.noSuchElementException, evs ++ [Event.widgetFill name v]) := by
    rw [fillLoop_append env ((name, some v) :: post) pre false, hpre]
    simp [fillLoop, hname, hfill]
  simp [View.fill, h1]

/-- Witness for C6: with widget `A` raising `NoSuchElementException` on
fill, `View.fill {A: 3}` aborts with that very exception. -/
theorem fill_propagates_no_such_element_witness :
    View.fill ⟨"V", ["A"], fun _ _ => Except.error Exc.noSuchElementException⟩
        [("A", some 3)] =
      (Except.error Exc.noSuchElementException,
       [Event.beforeFill, Event.widgetFill "A" 3]) ∧
    View.read (fun _ => Except.error Exc.noSuchElementException) ["A"] =
      Except.ok [] :=
  fill_propagates_no_such_element
    ⟨"V", ["A"], fun _ _ => Except.error Exc.noSuchElementException⟩
    [] [] "A" 3 false [] (by decide) (by rfl) (by rfl)

/-- Claim C7: `View.read` visits every name of `widget_names()` in
order; a widget whose `read` raises `NotImplementedError` or
`NoSuchElementException` is omitted from the result without error, and
every widget whose `read` returns a value contributes `name ↦ value`;
the accumulated mapping is returned. -/
theorem read_collects_with_omissions (reads : String → Except Exc Nat)
    (names : List String)
    (h : ∀ n ∈ names, reads n = Except.error Exc.notImplementedError ∨
      reads n = Except.error Exc.noSuchElementException ∨ ∃ v, reads n = Except.ok v) :
    View.read reads names =
      Except.ok (names.filterMap (fun n =>
        match reads n with
        | Except.ok v => some (n, v)
        | Except.error _ => none)) := by
  induction names with
  | nil => rfl
  | cons n rest ih =>
    have hrest := ih (fun m hm => h m (List.mem_cons_of_mem n hm))
    rcases h n (List.mem_cons_self n rest) with h1 | h1 | ⟨v, h1⟩ <;>
      simp [View.read, List.filterMap_cons, Except.map, h1, hrest]

/-- Witness for C7: reading a view with a valued widget `A`, a
non-readable widget `B` and a missing-element widget `C` yields the
mapping containing only `A`. -/
theorem read_collects_with_omissions_witness :
    View.read
      (fun n => if n = "A" then Except.ok 5
        else if n = "B" then Widget.readDefault
        else Except.error Exc.noSuchElementException)
      ["A", "B", "C"] = Except.ok [("A", 5)] := by
  have h := read_collects_with_omissions
    (fun n => if n = "A" then Except.ok 5
      else if n = "B" then Widget.readDefault
      else Except.error Exc.noSuchElementException)
    ["A", "B", "C"]
    (by
      intro n hn
      simp only [List.mem_cons, List.not_mem_nil, or_false] at hn
      rcases hn with rfl | rfl | rfl
      · exact Or.inr (Or.inr ⟨5, rfl⟩)
      · exact Or.inl rfl
      · exact Or.inr (Or.inl rfl))
  simpa using h

/-- Claim C9: a pair whose value is `None` is skipped entirely by
`View.fill`: the widget's `fill` is never invoked, no error arises from
the pair, the accumulator is unchanged (the pair contributes `false` to
the aggregate), and a fill of only `{name: None}` returns `false` with
no widget-fill event. -/
theorem fill_skips_none_value (env : FillEnv) (name : String)
    (rest : List (String × Option Nat)) (b : Bool)
    (h : name ∈ env.names) :
    fillLoop env ((name, none) :: rest) b = fillLoop env rest b ∧
    View.fill env [(name, none)] =
      (Except.ok false, [Event.beforeFill, Event.afterFill false]) := by
  constructor
  · simp [fillLoop, h]
  · simp [View.fill, fillLoop, h]

/-- Witness for C9: `View.fill {A: None}` on the one-widget view leaves
the widget untouched and reports no change. -/
theorem fill_skips_none_value_witness :
    fillLoop envA [("A", none), ("A", some 1)] false =
      fillLoop envA [("A", some 1)] false ∧
    View.fill envA [("A", none)] =
      (Except.ok false, [Event.beforeFill, Event.afterFill false]) :=
  fill_skips_none_value envA "A" [("A", some 1)] false (by decide)

/-- Claim C10: every `View.fill` call invokes `before_fill` exactly once,
before any pair is processed (the trace is `before_fill`, then the
widget-fill invocations of the loop, which contain no hook events, then
`after_fill`); `after_fill(changed)` is invoked with the final aggregate
flag exactly when the loop completes without raising, and never after an
abort; filling an empty mapping invokes both hooks and returns `false`. -/
theorem fill_hook_discipline (env : FillEnv) (values : List (String × Option Nat)) :
    (View.fill env values).2 =
      Event.beforeFill :: (fillLoop env values false).2 ++
        (match (View.fill env values).1 with
         | Except.ok b => [Event.afterFill b]
         | Except.error _ => []) ∧
    (fillLoop env values false).2.countP (fun e => e.isBefore) = 0 ∧
    (fillLoop env values false).2.countP (fun e => e.isAfter) = 0 ∧
    View.fill env [] = (Except.ok false, [Event.beforeFill, Event.afterFill false]) := by
  refine ⟨?_, (fillLoop_no_hook_events env values false).1,
    (fillLoop_no_hook_events env values false).2, by rfl⟩
  rcases hfl : fillLoop env values false with ⟨res, evs⟩
  cases res <;> simp [View.fill, hfl]

/-- The parent chain a widget hangs on: `parent` is either the browser
session, a plain `Widget` instance (with its own parent), or a `View`
instance (with its own parent).  This is the data `isinstance` checks in
`Widget.parent_view` discriminate on. -/
inductive Node where
  | browser : Node
  | widget (parent : Node) : Node
  | view (parent : Node) : Node
deriving DecidableEq

/-- `isinstance(x, View)` on a parent-chain node. -/
def Node.isViewNode : Node → Bool
  | Node.view _ => true
  | _ => false

/-- `Widget.parent_view` (widget.py lines 115-125): return `self.parent`
if it is a `View` instance, otherwise `None`. -/
def Widget.parent_view (parent : Node) : Option Node :=
  if parent.isViewNode then some parent else none

/-- Modelled from the spec's wording only (for comparison with the code's
`Widget.parent_view`): the nearest enclosing `View` of a widget whose
parent is the given node — the first `View` among the parent, the
parent's parent, and so on. -/
def nearestEnclosingView : Node → Option Node
  | Node.browser => none
  | Node.widget p => nearestEnclosingView p
  | Node.view p => some (Node.view p)

/-- Claim C8: when the immediate parent is a `View`, `parent_view`
returns it, and that parent is precisely the nearest enclosing `View`;
when the immediate parent is not a `View`, `parent_view` returns the
`None` sentinel. -/
theorem parent_view_nearest (parent : Node) :
    (parent.isViewNode = true →
      Widget.parent_view parent = nearestEnclosingView parent ∧
      Widget.parent_view parent = some parent) ∧
    (parent.isViewNode = false → Widget.parent_view parent = none) := by
  cases parent <;>
    simp [Widget.parent_view, Node.isViewNode, nearestEnclosingView]

/-- Witness for C8: a widget whose parent is a view rooted on the
browser, and a widget whose parent is a plain widget. -/
theorem parent_view_nearest_witness :
    Widget.parent_view (Node.view Node.browser) = some (Node.view Node.browser) ∧
    Widget.parent_view (Node.widget Node.browser) = none :=
  ⟨((parent_view_nearest (Node.view Node.browser)).1 rfl).2,
   (parent_view_nearest (Node.widget Node.browser)).2 rfl⟩

/-- `WidgetDescriptor` data (widget.py lines 14-36): the widget class to
instantiate (`klass`), the captured positional and keyword arguments,
and the sequence id stamped by `__new__` from the class-level counter.
Classes and argument values are opaque to this module and modelled by
numbers. -/
structure WidgetDescriptor where
  klass : Nat
  args : List Nat
  kwargs : List (String × Nat)
  seq_id : Nat
deriving DecidableEq

/-- The class-level `_seq_cnt` counter (widget.py lines 23-24), whose
increment in `__new__` happens atomically under `_seq_cnt_lock`. -/
structure SeqCounter where
  seq_cnt : Nat
deriving DecidableEq

/-- One `WidgetDescriptor.__new__`/`__init__` (widget.py lines 26-36):
capture `klass`, `args` and `kwargs` verbatim, stamp `_seq_id` with the
current counter value and increment the counter. -/
def WidgetDescriptor.new (c : SeqCounter) (klass : Nat) (args : List Nat)
    (kwargs : List (String × Nat)) : WidgetDescriptor × SeqCounter :=
  (⟨klass, args, kwargs, c.seq_cnt⟩, ⟨c.seq_cnt + 1⟩)

/-- A class body declaring widgets in order: each spec entry is an
attribute name together with the widget class and arguments; the
descriptors are created left to right, sharing the counter. -/
def declareAll (c : SeqCounter) :
    List (String × Nat × List Nat × List (String × Nat)) →
      List (String × WidgetDescriptor) × SeqCounter
  | [] => ([], c)
  | (name, klass, args, kwargs) :: rest =>
    let r := WidgetDescriptor.new c klass args kwargs
    let r2 := declareAll r.2 rest
    ((name, r.1) :: r2.1, r2.2)

/-- Every descriptor created from counter state `c` gets a sequence id
of at least `c.seq_cnt`. -/
theorem declareAll_seq_ge (specs : List (String × Nat × List Nat × List (String × Nat))) :
    ∀ (c : SeqCounter), ∀ p ∈ (declareAll c specs).1, c.seq_cnt ≤ p.2.seq_id := by
  induction specs with
  | nil =>
    intro c p hp
    simp [declareAll] at hp
  | cons s rest ih =>
    obtain ⟨name, klass, args, kwargs⟩ := s
    intro c p hp
    simp only [declareAll, WidgetDescriptor.new, List.mem_cons] at hp
    rcases hp with rfl | hp
    · exact Nat.le_refl _
    · exact Nat.le_of_succ_le (ih ⟨c.seq_cnt + 1⟩ p hp)

/-- Sequence ids are strictly increasing along declaration order, so no
two descriptors ever share one: ties are impossible. -/
theorem declareAll_pairwise_lt (specs : List (String × Nat × List Nat × List (String × Nat))) :
    ∀ c : SeqCounter,
      ((declareAll c specs).1).Pairwise (fun a b => a.2.seq_id < b.2.seq_id) := by
  induction specs with
  | nil => intro c; simp [declareAll]
  | cons s rest ih =>
    obtain ⟨name, klass, args, kwargs⟩ := s
    intro c
    simp only [declareAll, WidgetDescriptor.new]
    refine List.Pairwise.cons ?_ (ih ⟨c.seq_cnt + 1⟩)
    intro p hp
    exact Nat.lt_of_lt_of_le (Nat.lt_succ_self _)
      (declareAll_seq_ge rest ⟨c.seq_cnt + 1⟩ p hp)

/-- A class attribute as `dir()`/`getattr` present it to `widget_names`:
either a `WidgetDescriptor` or any other value. -/
inductive AttrValue where
  | desc (d : WidgetDescriptor) : AttrValue
  | plain (v : Nat) : AttrValue
deriving DecidableEq

/-- The descriptor-valued entries of an attribute enumeration, in
enumeration order: the collection loop of `widget_names` (widget.py
lines 260-264). -/
def descAttrs (attrs : List (String × AttrValue)) : List (String × WidgetDescriptor) :=
  attrs.filterMap (fun p =>
    match p.2 with
    | AttrValue.desc d => some (p.1, d)
    | AttrValue.plain _ => none)

/-- `View.widget_names` (widget.py lines 253-265): collect the
descriptor-valued attributes of the class, in whatever order the
attribute storage enumerates them, sort the pairs by `_seq_id`
(`sorted(..., key=lambda pair: pair[1]._seq_id)`, modelled by a sort on
the `seq_id` key), and keep the names. -/
def View.widget_names (attrs : List (String × AttrValue)) : List String :=
  ((descAttrs attrs).insertionSort (fun a b => a.2.seq_id ≤ b.2.seq_id)).map Prod.fst

/-- Combining sortedness (weak) with key distinctness yields strict
sortedness on the `seq_id` key. -/
theorem pairwise_lt_of_le_of_ne :
    ∀ {l : List (String × WidgetDescriptor)},
      l.Pairwise (fun a b => a.2.seq_id ≤ b.2.seq_id) →
      l.Pairwise (fun a b => a.2.seq_id ≠ b.2.seq_id) →
      l.Pairwise (fun a b => a.2.seq_id < b.2.seq_id) := by
  intro l
  induction l with
  | nil => intro _ _; exact List.Pairwise.nil
  | cons p rest ih =>
    intro hle hne
    rw [List.pairwise_cons] at hle hne ⊢
    exact ⟨fun q hq => Nat.lt_of_le_of_ne (hle.1 q hq) (hne.1 q hq),
      ih hle.2 hne.2⟩

/-- Claim C2: for a view class whose widgets were declared in order
`decls` (strictly increasing sequence ids, as the counter hands them
out), `widget_names` returns exactly the declared names in declaration
order, for any enumeration `attrs` of the class attributes whose
descriptor-valued entries are a permutation of `decls`; the result is
thus deterministic and independent of the enumeration order, and the
sequence counter makes ties impossible (ids along a declaration run are
strictly increasing). -/
theorem widget_names_declaration_order (decls : List (String × WidgetDescriptor))
    (attrs : List (String × AttrValue))
    (hinc : decls.Pairwise (fun a b => a.2.seq_id < b.2.seq_id))
    (hperm : (descAttrs attrs).Perm decls) :
    View.widget_names attrs = decls.map Prod.fst ∧
    (∀ (c : SeqCounter) (specs : List (String × Nat × List Nat × List (String × Nat))),
      ((declareAll c specs).1).Pairwise (fun a b => a.2.seq_id < b.2.seq_id)) := by
  refine ⟨?_, fun c specs => declareAll_pairwise_lt specs c⟩
  haveI : IsTotal (String × WidgetDescriptor) (fun a b => a.2.seq_id ≤ b.2.seq_id) :=
    ⟨fun a b => Nat.le_total _ _⟩
  haveI : IsTrans (String × WidgetDescriptor) (fun a b => a.2.seq_id ≤ b.2.seq_id) :=
    ⟨fun _ _ _ => Nat.le_trans⟩
  haveI : IsAntisymm (String × WidgetDescriptor) (fun a b => a.2.seq_id < b.2.seq_id) :=
    ⟨fun a b h1 h2 => absurd h2 (Nat.lt_asymm h1)⟩
  have hsorted :
      ((descAttrs attrs).insertionSort (fun a b => a.2.seq_id ≤ b.2.seq_id)).Pairwise
        (fun a b => a.2.seq_id ≤ b.2.seq_id) :=
    List.sorted_insertionSort _ _
  have hp : ((descAttrs attrs).insertionSort
      (fun a b => a.2.seq_id ≤ b.2.seq_id)).Perm decls :=
    (List.perm_insertionSort _ _).trans hperm
  have hne_decls : decls.Pairwise (fun a b => a.2.seq_id ≠ b.2.seq_id) :=
    hinc.imp (fun h => Nat.ne_of_lt h)
  have hne_s : ((descAttrs attrs).insertionSort
      (fun a b => a.2.seq_id ≤ b.2.seq_id)).Pairwise
        (fun a b => a.2.seq_id ≠ b.2.seq_id) :=
    (hp.pairwise_iff (fun h => Ne.symm h)).mpr hne_decls
  have hlt_s := pairwise_lt_of_le_of_ne hsorted hne_s
  have heq := List.eq_of_perm_of_sorted hp hlt_s hinc
  unfold View.widget_names
  rw [heq]

/-- Witness for C2: three widgets `A`, `B`, `C` declared with sequence
ids 0, 1, 2; an attribute enumeration listing them out of order and
interleaved with a plain attribute still yields `[A, B, C]`. -/
theorem widget_names_declaration_order_witness :
    View.widget_names
        [("zzz", AttrValue.plain 7),
         ("C", AttrValue.desc ⟨3, [], [], 2⟩),
         ("A", AttrValue.desc ⟨1, [], [], 0⟩),
         ("B", AttrValue.desc ⟨2, [5], [], 1⟩)] =
      ["A", "B", "C"] :=
  (widget_names_declaration_order
    [("A", ⟨1, [], [], 0⟩), ("B", ⟨2, [5], [], 1⟩), ("C", ⟨3, [], [], 2⟩)]
    [("zzz", AttrValue.plain 7),
     ("C", AttrValue.desc ⟨3, [], [], 2⟩),
     ("A", AttrValue.desc ⟨1, [], [], 0⟩),
     ("B", AttrValue.desc ⟨2, [5], [], 1⟩)]
    (by decide) (by decide)).1

/-- Association-list lookup, keyed by object or sequence id: the first
matching entry wins (Python dict semantics; keys are unique in all the
states the protocol builds). -/
def alLookup {α : Type} : List (Nat × α) → Nat → Option α
  | [], _ => none
  | (k, v) :: l, j => if j = k then some v else alLookup l j

/-- In-place value replacement at a key (Python's `d[k] = v` for an
existing key, and `cache.clear()` through replacing the owning object). -/
def alUpdate {α : Type} (l : List (Nat × α)) (k : Nat) (v : α) : List (Nat × α) :=
  l.map (fun p => if p.1 = k then (k, v) else p)

/-- An object instance as the descriptor protocol sees it: its class,
the construction call it was made with (`klass(parent, *args, **kwargs)`,
recorded verbatim), and its private `_widget_cache` (created empty by
`View.__init__`, widget.py line 245), keyed by the identity of the
resolving descriptor — represented by the descriptor's unique sequence
id — and holding the object id of the resolved child. -/
structure Obj where
  klass : Nat
  parent : Nat
  args : List Nat
  kwargs : List (String × Nat)
  widget_cache : List (Nat × Nat)
deriving DecidableEq

/-- The instance heap: object ids to objects, a fresh-id supply giving
each constructed widget its identity, and a running count of widget
constructions performed (each `self.klass(obj, *args, **kwargs)` call). -/
structure Heap where
  objs : List (Nat × Obj)
  nextId : Nat
  constructions : Nat
deriving DecidableEq

/-- Heap well-formedness: every allocated object id is below the
fresh-id supply. -/
def Heap.wf (h : Heap) : Prop :=
  ∀ k ∈ h.objs.map Prod.fst, k < h.nextId

/-- `WidgetDescriptor.__get__` for instance access (widget.py lines
42-45): if this descriptor's identity is not a key of the owner's
`_widget_cache`, construct `self.klass(obj, *self.args, **self.kwargs)`
— a fresh object recording that construction call, with an empty cache
of its own — store it in the owner's cache, and return it; if it is,
return the cached instance unchanged.  The first component is the object
id of the returned widget.  (Class access, `obj is None`, returns the
descriptor itself, widget.py lines 39-40, and involves no heap.) -/
def WidgetDescriptor.get (d : WidgetDescriptor) (h : Heap) (ownerId : Nat) :
    Nat × Heap :=
  match alLookup h.objs ownerId with
  | none => (0, h)
  | some o =>
    match alLookup o.widget_cache d.seq_id with
    | some cid => (cid, h)
    | none =>
      let cid := h.nextId
      let child : Obj := ⟨d.klass, ownerId, d.args, d.kwargs, []⟩
      (cid,
        ⟨(cid, child) ::
            alUpdate h.objs ownerId
              ⟨o.klass, o.parent, o.args, o.kwargs, (d.seq_id, cid) :: o.widget_cache⟩,
          h.nextId + 1, h.constructions + 1⟩)

/-- `n` successive descriptor accesses from the same owner instance,
collecting the returned object ids. -/
def WidgetDescriptor.getN (d : WidgetDescriptor) (h : Heap) (ownerId : Nat) :
    Nat → List Nat × Heap
  | 0 => ([], h)
  | n + 1 =>
    let r := d.get h ownerId
    let r2 := d.getN r.2 ownerId n
    (r.1 :: r2.1, r2.2)

/-- A successful lookup comes from a list entry. -/
theorem alLookup_mem {α : Type} :
    ∀ {l : List (Nat × α)} {k : Nat} {v : α},
      alLookup l k = some v → (k, v) ∈ l := by
  intro l
  induction l with
  | nil => intro k v h; simp [alLookup] at h
  | cons p rest ih =>
    intro k v h
    obtain ⟨k1, v1⟩ := p
    by_cases hk : k = k1
    · subst hk
      simp [alLookup] at h
      subst h
      exact List.mem_cons_self _ _
    · simp only [alLookup, if_neg hk] at h
      exact List.mem_cons_of_mem _ (ih h)

/-- Updating a present key makes lookup return the new value. -/
theorem alLookup_update_self {α : Type} :
    ∀ {l : List (Nat × α)} {k : Nat} {w v : α},
      alLookup l k = some w → alLookup (alUpdate l k v) k = some v := by
  intro l
  induction l with
  | nil => intro k w v h; simp [alLookup] at h
  | cons p rest ih =>
    intro k w v h
    obtain ⟨k1, v1⟩ := p
    by_cases hk : k = k1
    · subst hk
      simp only [alUpdate, List.map_cons, if_true]
      simp [alLookup]
    · simp only [alLookup, if_neg hk] at h
      simp only [alUpdate, List.map_cons]
      rw [if_neg (fun hc : k1 = k => hk hc.symm)]
      simp only [alLookup, if_neg hk]
      exact ih h

/-- Updating one key leaves lookups at other keys unchanged. -/
theorem alLookup_update_other {α : Type} :
    ∀ {l : List (Nat × α)} {k j : Nat} {v : α}, j ≠ k →
      alLookup (alUpdate l k v) j = alLookup l j := by
  intro l
  induction l with
  | nil => intro k j v _; rfl
  | cons p rest ih =>
    intro k j v hjk
    obtain ⟨k1, v1⟩ := p
    simp only [alUpdate, List.map_cons]
    by_cases hk : k1 = k
    · subst hk
      rw [if_pos rfl]
      simp only [alLookup, if_neg hjk]
      exact ih hjk
    · rw [if_neg hk]
      simp only [alLookup]
      by_cases hj : j = k1
      · rw [if_pos hj, if_pos hj]
      · rw [if_neg hj, if_neg hj]
        exact ih hjk

/-- A cache hit (`self in obj._widget_cache`) returns the cached object
id and leaves the heap unchanged. -/
theorem get_cached (d : WidgetDescriptor) (h : Heap) (ownerId : Nat) (o : Obj)
    (cid : Nat)
    (howner : alLookup h.objs ownerId = some o)
    (hhit : alLookup o.widget_cache d.seq_id = some cid) :
    d.get h ownerId = (cid, h) := by
  simp [WidgetDescriptor.get, howner, hhit]

/-- Repeated access after a cache hit keeps returning the cached id and
never changes the heap. -/
theorem getN_cached (d : WidgetDescriptor) (h : Heap) (ownerId : Nat) (o : Obj)
    (cid : Nat)
    (howner : alLookup h.objs ownerId = some o)
    (hhit : alLookup o.widget_cache d.seq_id = some cid) :
    ∀ n, d.getN h ownerId n = (List.replicate n cid, h) := by
  intro n
  induction n with
  | zero => rfl
  | succ m ih =>
    simp only [WidgetDescriptor.getN, get_cached d h ownerId o cid howner hhit, ih]
    simp [List.replicate_succ]

/-- Claim C1: resolving a descriptor `d` against an owner instance `N ≥ 1`
times (with the descriptor not yet in the owner's cache, i.e. since the
last flush) constructs the underlying widget exactly once — the
construction counter rises by exactly one and the constructed object
records the call `klass(owner, *args, **kwargs)` — stores its id in the
owner's private cache keyed by the descriptor's identity on the first
resolution, and returns the very same object id all `N` times
(identity-equality), the heap staying in the state the first resolution
left it in. -/
theorem descriptor_resolves_once (d : WidgetDescriptor) (h : Heap) (ownerId : Nat)
    (o : Obj) (n : Nat)
    (hwf : h.wf)
    (howner : alLookup h.objs ownerId = some o)
    (hmiss : alLookup o.widget_cache d.seq_id = none)
    (hn : 1 ≤ n) :
    (d.getN h ownerId n).1 = List.replicate n h.nextId ∧
    alLookup (d.getN h ownerId n).2.objs h.nextId =
      some ⟨d.klass, ownerId, d.args, d.kwargs, []⟩ ∧
    (d.getN h ownerId n).2.constructions = h.constructions + 1 ∧
    (∃ o2, alLookup (d.getN h ownerId n).2.objs ownerId = some o2 ∧
      alLookup o2.widget_cache d.seq_id = some h.nextId) ∧
    (d.getN h ownerId n).2 = (d.getN h ownerId 1).2 := by
  obtain ⟨m, rfl⟩ : ∃ m, n = m + 1 := ⟨n - 1, by omega⟩
  have hlt : ownerId < h.nextId :=
    hwf ownerId (List.mem_map_of_mem Prod.fst (alLookup_mem howner))
  have hne : ownerId ≠ h.nextId := Nat.ne_of_lt hlt
  have hget : d.get h ownerId =
      (h.nextId,
        ⟨(h.nextId, ⟨d.klass, ownerId, d.args, d.kwargs, []⟩) ::
            alUpdate h.objs ownerId
              ⟨o.klass, o.parent, o.args, o.kwargs,
                (d.seq_id, h.nextId) :: o.widget_cache⟩,
          h.nextId + 1, h.constructions + 1⟩) := by
    simp [WidgetDescriptor.get, howner, hmiss]
  have howner1 : alLookup (d.get h ownerId).2.objs ownerId =
      some ⟨o.klass, o.parent, o.args, o.kwargs,
        (d.seq_id, h.nextId) :: o.widget_cache⟩ := by
    rw [hget]
    simp only [alLookup, if_neg hne]
    exact alLookup_update_self howner
  have hhit1 : alLookup ((d.seq_id, h.nextId) :: o.widget_cache) d.seq_id =
      some h.nextId := by
    simp [alLookup]
  have hrest := getN_cached d (d.get h ownerId).2 ownerId _ h.nextId howner1 hhit1 m
  have hNfull : d.getN h ownerId (m + 1) =
      (List.replicate (m + 1) h.nextId, (d.get h ownerId).2) := by
    simp only [WidgetDescriptor.getN, hrest]
    rw [List.replicate_succ]
    simp only [hget]
  refine ⟨by rw [hNfull], ?_, ?_, ?_, ?_⟩
  · rw [hNfull, hget]
    simp [alLookup]
  · rw [hNfull, hget]
  · refine ⟨⟨o.klass, o.parent, o.args, o.kwargs,
      (d.seq_id, h.nextId) :: o.widget_cache⟩, ?_, hhit1⟩
    rw [hNfull]
    exact howner1
  · rw [hNfull]
    rfl

/-- A one-object heap for witnesses: object 0 (of class 1, hanging off
the browser) with an empty widget cache; next fresh id 1, no
constructions performed yet. -/
def soloHeap : Heap := ⟨[(0, ⟨1, 0, [], [], []⟩)], 1, 0⟩

/-- A sample descriptor: class 5, one positional argument, one keyword
argument, sequence id 42. -/
def soloDesc : WidgetDescriptor := ⟨5, [7], [("x", 3)], 42⟩

/-- Witness for C1: three successive resolutions of the sample
descriptor against object 0 return object id 1 all three times and
construct exactly once. -/
theorem descriptor_resolves_once_witness :
    (soloDesc.getN soloHeap 0 3).1 = List.replicate 3 soloHeap.nextId ∧
    (soloDesc.getN soloHeap 0 3).2.constructions = soloHeap.constructions + 1 :=
  ⟨(descriptor_resolves_once soloDesc soloHeap 0 ⟨1, 0, [], [], []⟩ 3
      (by intro k hk; simp [soloHeap] at hk ⊢; omega) rfl rfl (by decide)).1,
   (descriptor_resolves_once soloDesc soloHeap 0 ⟨1, 0, [], [], []⟩ 3
      (by intro k hk; simp [soloHeap] at hk ⊢; omega) rfl rfl (by decide)).2.2.1⟩

/-- A view class as the metaclass leaves it: whether its instances are
`View`s, and the widget-descriptor attributes declared on it (the
enumeration that `widget_names` sorts). -/
structure ClassDef where
  isView : Bool
  widgets : List (String × WidgetDescriptor)
deriving DecidableEq

/-- The class table: class ids to class definitions. -/
abbrev ClassTable := List (Nat × ClassDef)

/-- The class's widget attributes in `widget_names()` order — sorted by
sequence id (widget.py line 265). -/
def sortedWidgets (cd : ClassDef) : List (String × WidgetDescriptor) :=
  cd.widgets.insertionSort (fun a b => a.2.seq_id ≤ b.2.seq_id)

/-- `getattr(self, name)` for each name in `widget_names()` order — the
resolution `View.__iter__` performs (widget.py lines 367-370), each step
going through `WidgetDescriptor.__get__` and hence constructing any
widget not yet cached. -/
def resolveList (ownerId : Nat) :
    List (String × WidgetDescriptor) → Heap → List Nat × Heap
  | [], h => ([], h)
  | (_, d) :: ws, h =>
    let r := d.get h ownerId
    let r2 := resolveList ownerId ws r.2
    (r.1 :: r2.1, r2.2)

/-- `View.__iter__` (widget.py lines 367-370): yield the resolved widget
for every widget name of the view's class, in order. -/
def View.iterWidgets (tbl : ClassTable) (h : Heap) (selfId : Nat) : List Nat × Heap :=
  match alLookup h.objs selfId with
  | none => ([], h)
  | some o =>
    match alLookup tbl o.klass with
    | none => ([], h)
    | some cd => resolveList selfId (sortedWidgets cd) h

/-- `isinstance(x, View)` for a heap object: its class is a view class. -/
def isViewObj (tbl : ClassTable) (h : Heap) (i : Nat) : Bool :=
  match alLookup h.objs i with
  | none => false
  | some o =>
    match alLookup tbl o.klass with
    | none => false
    | some cd => cd.isView

/-- `View._views` (widget.py lines 267-274): the sub-list of the
iterated — hence resolved — widgets that are themselves views. -/
def View.subViews (tbl : ClassTable) (h : Heap) (selfId : Nat) : List Nat × Heap :=
  let r := View.iterWidgets tbl h selfId
  (r.1.filter (fun i => isViewObj tbl r.2 i), r.2)

/-- `x._widget_cache.clear()` on one heap object (no-op on an absent
id). -/
def clearCache (h : Heap) (i : Nat) : Heap :=
  match alLookup h.objs i with
  | none => h
  | some o =>
    ⟨alUpdate h.objs i ⟨o.klass, o.parent, o.args, o.kwargs, []⟩,
      h.nextId, h.constructions⟩

/-- `View.flush_widget_cache` (widget.py lines 247-251): clear the cache
of every view in `self._views` — whose computation iterates, and hence
resolves, every widget of this view — then clear this view's own
cache. -/
def View.flush_widget_cache (tbl : ClassTable) (h : Heap) (selfId : Nat) : Heap :=
  let r := View.subViews tbl h selfId
  clearCache (r.1.foldl (fun hh i => clearCache hh i) r.2) selfId

/-- Updating a value in place never changes the key list. -/
theorem alUpdate_keys {α : Type} (l : List (Nat × α)) (k : Nat) (v : α) :
    (alUpdate l k v).map Prod.fst = l.map Prod.fst := by
  induction l with
  | nil => rfl
  | cons p rest ih =>
    obtain ⟨k1, v1⟩ := p
    by_cases hk : k1 = k
    · subst hk
      simp only [alUpdate, List.map_cons, if_true] at *
      simp [ih]
    · simp only [alUpdate, List.map_cons, if_neg hk] at *
      simp [ih]

/-- A cache miss constructs: the heap after `__get__` on an uncached
descriptor is well-formed, the owner's cache has gained the binding of
the descriptor to the fresh id, and the construction count rose by
one. -/
theorem get_miss (d : WidgetDescriptor) (h : Heap) (ownerId : Nat) (o : Obj)
    (hwf : h.wf)
    (howner : alLookup h.objs ownerId = some o)
    (hmiss : alLookup o.widget_cache d.seq_id = none) :
    (d.get h ownerId).2.wf ∧
    alLookup (d.get h ownerId).2.objs ownerId =
      some ⟨o.klass, o.parent, o.args, o.kwargs,
        (d.seq_id, h.nextId) :: o.widget_cache⟩ ∧
    (d.get h ownerId).2.constructions = h.constructions + 1 := by
  have hlt : ownerId < h.nextId :=
    hwf ownerId (List.mem_map_of_mem Prod.fst (alLookup_mem howner))
  have hne : ownerId ≠ h.nextId := Nat.ne_of_lt hlt
  have hget : d.get h ownerId =
      (h.nextId,
        ⟨(h.nextId, ⟨d.klass, ownerId, d.args, d.kwargs, []⟩) ::
            alUpdate h.objs ownerId
              ⟨o.klass, o.parent, o.args, o.kwargs,
                (d.seq_id, h.nextId) :: o.widget_cache⟩,
          h.nextId + 1, h.constructions + 1⟩) := by
    simp [WidgetDescriptor.get, howner, hmiss]
  refine ⟨?_, ?_, ?_⟩
  · rw [hget]
    intro k hk
    simp only [List.map_cons, alUpdate_keys, List.mem_cons] at hk
    rcases hk with rfl | hk
    · exact Nat.lt_succ_self _
    · exact Nat.lt_succ_of_lt (hwf k hk)
  · rw [hget]
    simp only [alLookup, if_neg hne]
    exact alLookup_update_self howner
  · rw [hget]

/-- Specification of the resolution pass `View.__iter__` performs over a
widget list: the heap stays well-formed, the owner stays allocated, and
— when the descriptor sequence ids are distinct, as the counter
guarantees — exactly one construction happens per widget that was not in
the owner's cache at the start. -/
theorem resolveList_spec (selfId : Nat) :
    ∀ (ws : List (String × WidgetDescriptor)) (h : Heap) (o : Obj),
      h.wf →
      alLookup h.objs selfId = some o →
      (resolveList selfId ws h).2.wf ∧
      (∃ o2, alLookup (resolveList selfId ws h).2.objs selfId = some o2) ∧
      ((ws.map (fun w => w.2.seq_id)).Nodup →
        (resolveList selfId ws h).2.constructions =
          h.constructions +
            ws.countP (fun w => (alLookup o.widget_cache w.2.seq_id).isNone)) := by
  intro ws
  induction ws with
  | nil =>
    intro h o hwf howner
    exact ⟨hwf, ⟨o, howner⟩, fun _ => by simp [resolveList]⟩
  | cons w ws ih =>
    intro h o hwf howner
    obtain ⟨nm, d⟩ := w
    cases hc : alLookup o.widget_cache d.seq_id with
    | some cid =>
      have hget := get_cached d h selfId o cid howner hc
      have hih := ih h o hwf howner
      have hunf : (resolveList selfId ((nm, d) :: ws) h).2 =
          (resolveList selfId ws h).2 := by
        simp only [resolveList, hget]
      refine ⟨hunf ▸ hih.1, hunf ▸ hih.2.1, ?_⟩
      intro hnodup
      simp only [List.map_cons, List.nodup_cons] at hnodup
      rw [hunf, hih.2.2 hnodup.2]
      simp [List.countP_cons, hc]
    | none =>
      have hm := get_miss d h selfId o hwf howner hc
      have hih := ih (d.get h selfId).2 _ hm.1 hm.2.1
      have hunf : (resolveList selfId ((nm, d) :: ws) h).2 =
          (resolveList selfId ws (d.get h selfId).2).2 := rfl
      refine ⟨hunf ▸ hih.1, hunf ▸ hih.2.1, ?_⟩
      intro hnodup
      simp only [List.map_cons, List.nodup_cons] at hnodup
      have hcongr : ws.countP (fun w =>
            (alLookup ((d.seq_id, h.nextId) :: o.widget_cache) w.2.seq_id).isNone) =
          ws.countP (fun w => (alLookup o.widget_cache w.2.seq_id).isNone) := by
        apply List.countP_congr
        intro w hw
        have hne : w.2.seq_id ≠ d.seq_id := by
          intro heq
          exact hnodup.1 (heq ▸ List.mem_map_of_mem (fun w => w.2.seq_id) hw)
        simp [alLookup, if_neg hne]
      rw [hunf, hih.2.2 hnodup.2, hm.2.2, hcongr]
      simp only [List.countP_cons, hc]
      simp
      omega

/-- Clearing a cache never performs a construction. -/
theorem clearCache_constructions (h : Heap) (i : Nat) :
    (clearCache h i).constructions = h.constructions := by
  unfold clearCache
  cases alLookup h.objs i <;> rfl

/-- Neither does clearing a list of caches. -/
theorem foldl_clearCache_constructions (L : List Nat) :
    ∀ h : Heap,
      (L.foldl (fun hh i => clearCache hh i) h).constructions = h.constructions := by
  induction L with
  | nil => intro h; rfl
  | cons j L ih =>
    intro h
    rw [List.foldl_cons, ih, clearCache_constructions]

/-- Clearing one object's cache leaves every other object unchanged. -/
theorem clearCache_lookup_other (h : Heap) (i j : Nat) (hij : i ≠ j) :
    alLookup (clearCache h j).objs i = alLookup h.objs i := by
  unfold clearCache
  cases hj : alLookup h.objs j with
  | none => rfl
  | some oj => exact alLookup_update_other hij

/-- Clearing an allocated object's cache empties exactly its cache. -/
theorem clearCache_lookup_self (h : Heap) (i : Nat) (o : Obj)
    (hi : alLookup h.objs i = some o) :
    alLookup (clearCache h i).objs i =
      some ⟨o.klass, o.parent, o.args, o.kwargs, []⟩ := by
  unfold clearCache
  rw [hi]
  exact alLookup_update_self hi

/-- Clearing any cache keeps every allocated object allocated. -/
theorem clearCache_exists (h : Heap) (i j : Nat) (o : Obj)
    (hi : alLookup h.objs i = some o) :
    ∃ o2, alLookup (clearCache h j).objs i = some o2 := by
  by_cases hij : i = j
  · subst hij
    exact ⟨_, clearCache_lookup_self h i o hi⟩
  · rw [clearCache_lookup_other h i j hij]
    exact ⟨o, hi⟩

/-- An already-empty cache stays empty under further clears. -/
theorem clearCache_preserves_empty (h : Heap) (i j : Nat)
    (hemp : ∃ o, alLookup h.objs i = some o ∧ o.widget_cache = []) :
    ∃ o, alLookup (clearCache h j).objs i = some o ∧ o.widget_cache = [] := by
  obtain ⟨o, hi, he⟩ := hemp
  by_cases hij : i = j
  · subst hij
    exact ⟨_, clearCache_lookup_self h i o hi, rfl⟩
  · exact ⟨o, by rw [clearCache_lookup_other h i j hij]; exact hi, he⟩

/-- An already-empty cache stays empty under a whole run of clears. -/
theorem foldl_clearCache_preserves_empty (L : List Nat) :
    ∀ (h : Heap) (i : Nat),
      (∃ o, alLookup h.objs i = some o ∧ o.widget_cache = []) →
      ∃ o, alLookup (L.foldl (fun hh k => clearCache hh k) h).objs i = some o ∧
        o.widget_cache = [] := by
  induction L with
  | nil => intro h i he; exact he
  | cons j L ih =>
    intro h i he
    rw [List.foldl_cons]
    exact ih _ i (clearCache_preserves_empty h i j he)

/-- A run of clears keeps every allocated object allocated. -/
theorem foldl_clearCache_exists (L : List Nat) :
    ∀ (h : Heap) (i : Nat) (o : Obj),
      alLookup h.objs i = some o →
      ∃ o2, alLookup (L.foldl (fun hh k => clearCache hh k) h).objs i = some o2 := by
  induction L with
  | nil => intro h i o hi; exact ⟨o, hi⟩
  | cons j L ih =>
    intro h i o hi
    rw [List.foldl_cons]
    obtain ⟨o2, h2⟩ := clearCache_exists h i j o hi
    exact ih _ i o2 h2

/-- Every allocated id in the cleared list ends the run of clears with
an empty cache. -/
theorem foldl_clearCache_clears_mem (L : List Nat) :
    ∀ (h : Heap) (i : Nat), i ∈ L →
      (∃ o, alLookup h.objs i = some o) →
      ∃ o, alLookup (L.foldl (fun hh k => clearCache hh k) h).objs i = some o ∧
        o.widget_cache = [] := by
  induction L with
  | nil =>
    intro h i hi _
    simp at hi
  | cons j L ih =>
    intro h i hiL hex
    obtain ⟨o, hi⟩ := hex
    rw [List.foldl_cons]
    rcases List.mem_cons.mp hiL with rfl | hiL
    · exact foldl_clearCache_preserves_empty L _ i
        ⟨_, clearCache_lookup_self h i o hi, rfl⟩
    · obtain ⟨o2, h2⟩ := clearCache_exists h i j o hi
      exact ih _ i hiL ⟨o2, h2⟩

/-- A true `isinstance(x, View)` check implies the object is
allocated. -/
theorem isViewObj_exists (tbl : ClassTable) (h : Heap) (i : Nat) :
    isViewObj tbl h i = true → ∃ o, alLookup h.objs i = some o := by
  unfold isViewObj
  cases ho : alLookup h.objs i with
  | none => simp
  | some o => exact fun _ => ⟨o, rfl⟩

/-- Amended claim C3 (what the code does): `flush_widget_cache` first
iterates the view — resolving, and so CONSTRUCTING, every widget whose
descriptor is not in the cache (one construction per uncached widget,
given the counter-guaranteed distinct sequence ids) — then clears the
cache of every direct sub-view obtained by that iteration, and finally
clears this view's own cache.  Contrary to the claim as stated, a
sub-view that was never resolved is not left untouched: the flush
itself constructs it. -/
theorem flush_widget_cache_spec (tbl : ClassTable) (h : Heap) (selfId : Nat)
    (o : Obj) (cd : ClassDef)
    (hwf : h.wf)
    (howner : alLookup h.objs selfId = some o)
    (hcls : alLookup tbl o.klass = some cd)
    (hnodup : ((sortedWidgets cd).map (fun w => w.2.seq_id)).Nodup) :
    (∃ o2, alLookup (View.flush_widget_cache tbl h selfId).objs selfId = some o2 ∧
      o2.widget_cache = []) ∧
    (View.flush_widget_cache tbl h selfId).constructions =
      h.constructions +
        (sortedWidgets cd).countP
          (fun w => (alLookup o.widget_cache w.2.seq_id).isNone) ∧
    (∀ i ∈ (View.subViews tbl h selfId).1,
      ∃ oi, alLookup (View.flush_widget_cache tbl h selfId).objs i = some oi ∧
        oi.widget_cache = []) := by
  have hiter : View.iterWidgets tbl h selfId =
      resolveList selfId (sortedWidgets cd) h := by
    simp [View.iterWidgets, howner, hcls]
  obtain ⟨hwf2, ⟨o2, howner2⟩, hcount⟩ :=
    resolveList_spec selfId (sortedWidgets cd) h o hwf howner
  have hsub2 : (View.subViews tbl h selfId).2 =
      (resolveList selfId (sortedWidgets cd) h).2 := by
    simp [View.subViews, hiter]
  have hflush : View.flush_widget_cache tbl h selfId =
      clearCache
        ((View.subViews tbl h selfId).1.foldl (fun hh i => clearCache hh i)
          (View.subViews tbl h selfId).2) selfId := rfl
  refine ⟨?_, ?_, ?_⟩
  · obtain ⟨o3, h3⟩ := foldl_clearCache_exists (View.subViews tbl h selfId).1
      (View.subViews tbl h selfId).2 selfId o2 (by rw [hsub2]; exact howner2)
    rw [hflush]
    exact ⟨_, clearCache_lookup_self _ selfId o3 h3, rfl⟩
  · rw [hflush, clearCache_constructions, foldl_clearCache_constructions, hsub2,
      hcount hnodup]
  · intro i hi
    have hview : isViewObj tbl (View.subViews tbl h selfId).2 i = true := by
      have hmem := List.mem_filter.mp (by
        simpa only [View.subViews, hiter] using hi)
      rw [hsub2]
      exact hmem.2
    obtain ⟨oi, hoi⟩ := isViewObj_exists tbl (View.subViews tbl h selfId).2 i hview
    have hemp := foldl_clearCache_clears_mem (View.subViews tbl h selfId).1
      (View.subViews tbl h selfId).2 i hi ⟨oi, hoi⟩
    rw [hflush]
    exact clearCache_preserves_empty _ i selfId hemp

/-- A two-class table: class 1 is a view declaring a single sub-view
widget (of view class 2, descriptor sequence id 0); class 2 is a view
with no widgets. -/
def nestedTable : ClassTable :=
  [(1, ⟨true, [("sub", ⟨2, [], [], 0⟩)]⟩), (2, ⟨true, []⟩)]

/-- A heap holding one freshly built instance of class 1 (object 10)
whose sub-view widget has never been resolved; no construction has been
performed. -/
def nestedHeap : Heap := ⟨[(10, ⟨1, 0, [], [], []⟩)], 11, 0⟩

/-- Counterexample to claim C3 as stated: flushing a view whose sub-view
was never resolved does trigger a construction — `_views` is computed by
iterating the view, and iteration resolves (constructs) every uncached
widget.  On `nestedHeap` nothing was ever constructed, yet the flush
performs one construction. -/
theorem flush_constructs_counterexample :
    nestedHeap.constructions = 0 ∧
    (View.flush_widget_cache nestedTable nestedHeap 10).constructions = 1 := by
  exact ⟨rfl, by decide⟩

/-- Witness for the amended C3: on `nestedHeap` the flush constructs the
one uncached widget, and both the view's and the freshly constructed
sub-view's caches end empty. -/
theorem flush_widget_cache_spec_witness :
    (∃ o2, alLookup (View.flush_widget_cache nestedTable nestedHeap 10).objs 10 =
      some o2 ∧ o2.widget_cache = []) ∧
    (View.flush_widget_cache nestedTable nestedHeap 10).constructions =
      nestedHeap.constructions +
        (sortedWidgets ⟨true, [("sub", ⟨2, [], [], 0⟩)]⟩).countP
          (fun w => (alLookup ([] : List (Nat × Nat)) w.2.seq_id).isNone) :=
  ⟨(flush_widget_cache_spec nestedTable nestedHeap 10 ⟨1, 0, [], [], []⟩
      ⟨true, [("sub", ⟨2, [], [], 0⟩)]⟩
      (by intro k hk; simp [nestedHeap] at hk ⊢; omega) rfl rfl (by decide)).1,
   (flush_widget_cache_spec nestedTable nestedHeap 10 ⟨1, 0, [], [], []⟩
      ⟨true, [("sub", ⟨2, [], [], 0⟩)]⟩
      (by intro k hk; simp [nestedHeap] at hk ⊢; omega) rfl rfl (by decide)).2.1⟩

end Widgetastic
